import Mathlib

/-!
Verification development for the smartnode watchtower rewards-tree generator
(`rocketpool/watchtower/respond-challenges.go`, second file in the blob:
the `generateRewardsTree` task) and the wallet purge operation
(`rocketpool/api/wallet/purge.go`).

Strings from the Go side (file names, byte buffers) are modelled as lists of
byte values (`List Nat`), matching Go's byte-oriented strings.
-/

/-! ### Go `strconv` model

`run` parses the request-file index with `strconv.ParseUint(indexString, 0, 64)`.
The model below follows the Go standard library implementation of `ParseUint`
with `base = 0` and `bitSize = 64`: optional `0b`/`0o`/`0x`/leading-`0` base
detection, underscore digit separators (validated by `underscoreOK` over the
original string), and 64-bit overflow detection via the `cutoff`/`maxVal`
checks.  All error returns are collapsed to `none` (the caller only tests
`err != nil`). -/

/-- Go's `lower(c) = c | ('x' - 'X')`: ASCII lower-casing of a byte. -/
def lowerByte (c : Nat) : Nat := c ||| 32

/-- `maxUint64` from `strconv`. -/
def maxUint64 : Nat := 2 ^ 64 - 1

/-- Scanner of Go's `strconv.underscoreOK` main loop.  The `saw` argument holds
the byte code of the last character class seen: 94 `^` for beginning, 48 `0`
for a digit or base prefix, 95 `_` for an underscore, 33 `!` for anything
else. -/
def underscoreOKLoop (hex : Bool) : List Nat → Nat → Bool
  | [], saw => decide (saw ≠ 95)
  | c :: cs, saw =>
    if (48 ≤ c ∧ c ≤ 57) ∨ (hex ∧ 97 ≤ lowerByte c ∧ lowerByte c ≤ 102) then
      underscoreOKLoop hex cs 48
    else if c = 95 then
      if saw ≠ 48 then false else underscoreOKLoop hex cs 95
    else if saw = 95 then false
    else underscoreOKLoop hex cs 33

/-- Go's `strconv.underscoreOK s`: reports whether the underscores in `s` are
allowed (only between digits, or between a base marker and a digit). -/
def underscoreOK (s : List Nat) : Bool :=
  let s1 := match s with
    | c :: cs => if c = 45 ∨ c = 43 then cs else c :: cs
    | [] => []
  match s1 with
  | c0 :: c1 :: rest =>
    if c0 = 48 ∧ (lowerByte c1 = 98 ∨ lowerByte c1 = 111 ∨ lowerByte c1 = 120) then
      underscoreOKLoop (decide (lowerByte c1 = 120)) rest 48
    else underscoreOKLoop false s1 94
  | _ => underscoreOKLoop false s1 94

/-- Digit loop of Go's `strconv.ParseUint` for `base0 = true`: consumes digit
bytes, skipping underscores (recording that some were seen), rejecting digits
out of range for the base, and rejecting 64-bit overflow through the
`cutoff` / `maxVal` tests.  Returns the accumulated value and the
underscores-seen flag, or `none` on a syntax or range error. -/
def parseUintLoop (base cutoff maxVal : Nat) : List Nat → Nat → Bool → Option (Nat × Bool)
  | [], n, u => some (n, u)
  | c :: cs, n, u =>
    if c = 95 then parseUintLoop base cutoff maxVal cs n true
    else
      let d? : Option Nat :=
        if 48 ≤ c ∧ c ≤ 57 then some (c - 48)
        else if 97 ≤ lowerByte c ∧ lowerByte c ≤ 122 then some (lowerByte c - 97 + 10)
        else none
      match d? with
      | none => none
      | some d =>
        if base ≤ d then none
        else if cutoff ≤ n then none
        else
          let n1 := n * base + d
          if maxVal < n1 then none
          else parseUintLoop base cutoff maxVal cs n1 u

/-- Go's `strconv.ParseUint(s, 0, 64)`: base detection from the `0b`/`0o`/`0x`
or leading-`0` marker (the prefixed forms require at least one byte after the
marker, hence the three-byte pattern), then the digit loop, then the
`underscoreOK` validation of the original string when underscores were
consumed.  `none` stands for any non-nil error. -/
def parseUint0_64 (s : List Nat) : Option Nat :=
  match s with
  | [] => none
  | c0 :: rest0 =>
    let p : Nat × List Nat :=
      if c0 = 48 then
        match rest0 with
        | c1 :: c2 :: rest =>
          if lowerByte c1 = 98 then (2, c2 :: rest)
          else if lowerByte c1 = 111 then (8, c2 :: rest)
          else if lowerByte c1 = 120 then (16, c2 :: rest)
          else (8, c1 :: c2 :: rest)
        | rest => (8, rest)
      else (10, c0 :: rest0)
    let base := p.1
    let cutoff := maxUint64 / base + 1
    match parseUintLoop base cutoff maxUint64 p.2 0 false with
    | none => none
    | some (n, underscores) =>
      if underscores ∧ ¬ underscoreOK (c0 :: rest0) then none else some n

/-! ### The request-queue watcher (`generateRewardsTree.run`)

The poll body of `run`: the `isRunning` fast-path check under the lock, the
`ioutil.ReadDir` enumeration, and the loop over directory entries that, at the
first non-directory entry whose name ends in the request suffix, parses the
index prefix, deletes the file, sets `isRunning` and launches
`generateRewardsTree index` in the background, returning after that first
request.  External effects (`ReadDir`, `os.Remove`) enter through `RunEnv`;
the launched background generation and the removal are recorded in
`RunResult`. -/

/-- Go `strings.HasSuffix`. -/
def goHasSuffix (s suffix : List Nat) : Bool := suffix.isSuffixOf s

/-- Go `strings.TrimSuffix`: drops `suffix` from the end of `s` when present,
otherwise returns `s` unchanged. -/
def goTrimSuffix (s suffix : List Nat) : List Nat :=
  if goHasSuffix s suffix then s.take (s.length - suffix.length) else s

/-- Modelled from the spec: the value of
`config.RegenerateRewardsTreeRequestSuffix` (the `config` package is absent
from `src/`).  Section 6 gives the request marker path as
`<watchtowerDir>/<intervalIndex><requestSuffix>` and the section 8 scenario
names the file `5.request`, so the suffix is the byte string `".request"`. -/
def requestSuffixBytes : List Nat := [46, 114, 101, 113, 117, 101, 115, 116]

deriving instance DecidableEq for Except

deriving instance Repr for Except

/-- One entry of the `ioutil.ReadDir` result: a name and the `IsDir` flag. -/
structure DirEntry where
  name : List Nat
  isDir : Bool
  deriving DecidableEq, Repr

/-- The three error returns of the poll body of `run` (each wrapped by
`fmt.Errorf` in the code; the wrapping text is irrelevant here). -/
inductive RunError
  | enumerate
  | parseIndex (filename : List Nat)
  | removeFile (filename : List Nat)
  deriving DecidableEq, Repr

/-- External state and effects consumed by one `run` poll: the `isRunning`
flag read under the lock, the `ReadDir` outcome, and whether `os.Remove`
succeeds for a given file name. -/
structure RunEnv where
  isRunning : Bool
  readDir : Except Unit (List DirEntry)
  removeOk : List Nat → Bool

/-- Observable outcome of one `run` poll: the returned error (if any), the
names removed by `os.Remove`, and the interval indices handed to
`go t.generateRewardsTree(index)`. -/
structure RunResult where
  result : Except RunError Unit
  removed : List (List Nat)
  launched : List Nat
  deriving DecidableEq, Repr

/-- The `for _, file := range files` loop of `run`: skips entries that are
directories or lack the request suffix; at the first match, a parse failure
or a removal failure returns the corresponding error, otherwise it removes
the file, launches generation for the parsed index and returns. -/
def runLoop (removeOk : List Nat → Bool) : List DirEntry → RunResult
  | [] => ⟨.ok (), [], []⟩
  | e :: rest =>
    if goHasSuffix e.name requestSuffixBytes && ! e.isDir then
      match parseUint0_64 (goTrimSuffix e.name requestSuffixBytes) with
      | none => ⟨.error (.parseIndex e.name), [], []⟩
      | some index =>
        if removeOk e.name then ⟨.ok (), [e.name], [index]⟩
        else ⟨.error (.removeFile e.name), [], []⟩
    else runLoop removeOk rest

/-- The poll body of `generateRewardsTree.run`: no-op when `isRunning` is
already set; error when `ReadDir` fails; otherwise the entry loop. -/
def watcherRun (env : RunEnv) : RunResult :=
  if env.isRunning then ⟨.ok (), [], []⟩
  else match env.readDir with
    | .error _ => ⟨.error .enumerate, [], []⟩
    | .ok files => runLoop env.removeOk files

/-- First non-directory entry whose name carries the request suffix: the
entry the loop of `run` acts on. -/
def firstMatch (files : List DirEntry) : Option DirEntry :=
  files.find? (fun e => goHasSuffix e.name requestSuffixBytes && ! e.isDir)

/-- Grounding of `RunEnv` in a directory state: generation idle, enumeration
succeeds and returns `fs`, and `os.Remove` succeeds exactly for names present
in `fs`. -/
def envOfFs (fs : List DirEntry) : RunEnv :=
  ⟨false, .ok fs, fun n => fs.any (fun e => e.name = n)⟩

/-- Directory state after the removals of one poll. -/
def applyRemovals (fs : List DirEntry) (removed : List (List Nat)) : List DirEntry :=
  fs.filter (fun e => decide (¬ e.name ∈ removed))

/-- One poll of the watcher over a concrete directory state. -/
def pollOnce (fs : List DirEntry) : List DirEntry × RunResult :=
  let r := watcherRun (envOfFs fs)
  (applyRemovals fs r.removed, r)

/-- `n` successive polls over a directory state, threading the removals of
each poll into the next, collecting each poll's result. -/
def pollMany : Nat → List DirEntry → List DirEntry × List RunResult
  | 0, fs => (fs, [])
  | n + 1, fs =>
    let p := pollOnce fs
    let q := pollMany n p.1
    (q.1, p.2 :: q.2)

/-- Byte-list form of an ASCII string literal, for concrete test inputs. -/
def bytesOf (s : String) : List Nat := s.data.map Char.toNat

/-! ### Watcher lemmas -/

/-- The loop of `run` acts exactly on the first suffix-matching non-directory
entry: its outcome is determined by that entry's parse result and removal
outcome alone. -/
theorem runLoop_firstMatch_some (ro : List Nat → Bool) (files : List DirEntry)
    (e : DirEntry) (h : firstMatch files = some e) :
    runLoop ro files =
      match parseUint0_64 (goTrimSuffix e.name requestSuffixBytes) with
      | none => ⟨Except.error (RunError.parseIndex e.name), [], []⟩
      | some i =>
        if ro e.name then ⟨Except.ok (), [e.name], [i]⟩
        else ⟨Except.error (RunError.removeFile e.name), [], []⟩ := by
  induction files with
  | nil => simp [firstMatch] at h
  | cons f rest ih =>
    have h2 := h
    rw [firstMatch, List.find?_cons] at h2
    cases hb : (goHasSuffix f.name requestSuffixBytes && ! f.isDir) with
    | true =>
      rw [hb] at h2
      have hf : f = e := Option.some_injective _ h2
      subst hf
      rw [runLoop, hb]
      simp
    | false =>
      rw [hb] at h2
      rw [runLoop, hb]
      simp only [Bool.false_eq_true, if_false]
      exact ih h2

/-- With no suffix-matching non-directory entry, the loop of `run` removes
nothing, launches nothing and returns success. -/
theorem runLoop_firstMatch_none (ro : List Nat → Bool) (files : List DirEntry)
    (h : firstMatch files = none) :
    runLoop ro files = ⟨Except.ok (), [], []⟩ := by
  induction files with
  | nil => rfl
  | cons f rest ih =>
    rw [firstMatch, List.find?_cons] at h
    cases hb : (goHasSuffix f.name requestSuffixBytes && ! f.isDir) with
    | true =>
      rw [hb] at h
      exact absurd h (by simp)
    | false =>
      rw [hb] at h
      rw [runLoop, hb]
      simp only [Bool.false_eq_true, if_false]
      exact ih h

/-- Claim C2 as stated is refuted at the directory
`[bad.request, 5.request]`: a non-directory entry with the request suffix and
a parsing prefix exists (`5.request`), yet the poll returns a parse error for
`bad.request`, deletes nothing and starts no generation. -/
theorem watcherRun_malformed_first_counterexample :
    (∃ e ∈ [DirEntry.mk (bytesOf "bad.request") false,
            DirEntry.mk (bytesOf "5.request") false],
        goHasSuffix e.name requestSuffixBytes = true ∧ e.isDir = false ∧
          parseUint0_64 (goTrimSuffix e.name requestSuffixBytes) = some 5) ∧
    watcherRun (envOfFs [DirEntry.mk (bytesOf "bad.request") false,
                         DirEntry.mk (bytesOf "5.request") false]) =
      ⟨Except.error (RunError.parseIndex (bytesOf "bad.request")), [], []⟩ := by
  decide

/-- Claim C2 (amended): provided no generation is already in flight, the
first suffix-matching non-directory entry of the directory has a prefix that
parses, and its deletion succeeds, one poll deletes exactly that file,
launches generation for its parsed index exactly once, and returns
successfully without touching any other request file. -/
theorem watcherRun_first_request (env : RunEnv) (files : List DirEntry)
    (e : DirEntry) (i : Nat)
    (hrun : env.isRunning = false)
    (hdir : env.readDir = Except.ok files)
    (hm : firstMatch files = some e)
    (hp : parseUint0_64 (goTrimSuffix e.name requestSuffixBytes) = some i)
    (hrm : env.removeOk e.name = true) :
    watcherRun env = ⟨Except.ok (), [e.name], [i]⟩ := by
  rw [watcherRun, hrun, hdir]
  simp only [Bool.false_eq_true, if_false]
  rw [runLoop_firstMatch_some env.removeOk files e hm, hp, hrm]
  simp

/-- Scenario from the spec: a lone request file `5.request` is deleted by one
poll and generation for index 5 is launched exactly once. -/
theorem watcherRun_first_request_witness :
    watcherRun (envOfFs [DirEntry.mk (bytesOf "5.request") false]) =
      ⟨Except.ok (), [bytesOf "5.request"], [5]⟩ :=
  watcherRun_first_request _ [DirEntry.mk (bytesOf "5.request") false]
    (DirEntry.mk (bytesOf "5.request") false) 5 rfl rfl (by decide) (by decide)
    (by decide)

/-- Errors of the loop of `run`, characterized: the loop fails exactly when
there is a first suffix-matching non-directory entry and either its prefix
fails to parse or its removal fails. -/
theorem runLoop_error_iff (ro : List Nat → Bool) (files : List DirEntry) :
    (∃ er, (runLoop ro files).result = Except.error er) ↔
      ∃ e, firstMatch files = some e ∧
        (parseUint0_64 (goTrimSuffix e.name requestSuffixBytes) = none ∨
          ro e.name = false) := by
  cases hm : firstMatch files with
  | none =>
    rw [runLoop_firstMatch_none ro files hm]
    simp
  | some e =>
    rw [runLoop_firstMatch_some ro files e hm]
    cases hp : parseUint0_64 (goTrimSuffix e.name requestSuffixBytes) with
    | none => simp [hp]
    | some i =>
      cases hr : ro e.name with
      | true => simp [hp, hr]
      | false => simp [hp, hr]

/-- Claim C8: one poll of the watcher returns an error exactly when directory
enumeration fails, or — generation not being in flight — the first
suffix-matching non-directory entry exists and its index prefix fails to
parse or its deletion fails; in every other case the poll returns
successfully. -/
theorem watcherRun_error_iff (env : RunEnv) :
    (∃ er, (watcherRun env).result = Except.error er) ↔
      env.isRunning = false ∧
        (env.readDir = Except.error () ∨
          ∃ files e, env.readDir = Except.ok files ∧ firstMatch files = some e ∧
            (parseUint0_64 (goTrimSuffix e.name requestSuffixBytes) = none ∨
              env.removeOk e.name = false)) := by
  cases hrun : env.isRunning with
  | true =>
    rw [watcherRun, hrun]
    simp
  | false =>
    rw [watcherRun, hrun]
    simp only [Bool.false_eq_true, if_false]
    cases hdir : env.readDir with
    | error u =>
      cases u
      simp
    | ok files =>
      constructor
      · intro hex
        rcases (runLoop_error_iff env.removeOk files).mp hex with ⟨e, hm, hcase⟩
        exact ⟨by trivial, Or.inr ⟨files, e, rfl, hm, hcase⟩⟩
      · rintro ⟨-, h | ⟨files2, e, hf, hm, hcase⟩⟩
        · exact absurd h (by simp)
        · injection hf with hff
          subst hff
          exact (runLoop_error_iff env.removeOk files).mpr ⟨e, hm, hcase⟩

/-- One poll over a directory whose first suffix-matching non-directory entry
has an unparseable index prefix: the poll returns the parse error for that
entry, deletes nothing, launches nothing, and leaves the directory
unchanged. -/
theorem pollOnce_parse_failure (fs : List DirEntry) (e : DirEntry)
    (hm : firstMatch fs = some e)
    (hp : parseUint0_64 (goTrimSuffix e.name requestSuffixBytes) = none) :
    pollOnce fs = (fs, ⟨Except.error (RunError.parseIndex e.name), [], []⟩) := by
  have hrun : watcherRun (envOfFs fs) =
      ⟨Except.error (RunError.parseIndex e.name), [], []⟩ := by
    rw [watcherRun]
    show runLoop (envOfFs fs).removeOk fs = _
    rw [runLoop_firstMatch_some _ fs e hm, hp]
  rw [pollOnce, hrun]
  simp [applyRemovals, List.filter_eq_self]

/-- Claim C10: when the first suffix-matching non-directory entry has an
index prefix that fails to parse, every one of `n` successive polls over the
(hence unchanged) directory returns the same parse error for that same entry,
never deletes a file and never launches a generation; the poll outcome is a
function of that first entry alone, so no later request file is ever
processed. -/
theorem pollMany_parse_failure (fs : List DirEntry) (e : DirEntry) (n : Nat)
    (hm : firstMatch fs = some e)
    (hp : parseUint0_64 (goTrimSuffix e.name requestSuffixBytes) = none) :
    pollMany n fs =
      (fs, List.replicate n ⟨Except.error (RunError.parseIndex e.name), [], []⟩) := by
  induction n with
  | zero => rfl
  | succ k ih =>
    rw [pollMany, pollOnce_parse_failure fs e hm hp]
    rw [ih]
    rfl

/-- Witness for claim C10: with `bad.request` ahead of `5.request`, three
polls all fail with the parse error for `bad.request`, the directory keeps
both files, and no generation is ever launched. -/
theorem pollMany_parse_failure_witness :
    pollMany 3 [DirEntry.mk (bytesOf "bad.request") false,
                DirEntry.mk (bytesOf "5.request") false] =
      ([DirEntry.mk (bytesOf "bad.request") false,
        DirEntry.mk (bytesOf "5.request") false],
        List.replicate 3
          ⟨Except.error (RunError.parseIndex (bytesOf "bad.request")), [], []⟩) :=
  pollMany_parse_failure _ (DirEntry.mk (bytesOf "bad.request") false) 3
    (by decide) (by decide)

/-! ### Concurrency model of `generateRewardsTree.run` (claim C1)

Each invocation of `run` is a thread whose shared-state accesses are the
atomic actions of the code, in program order:

1. `lock; if isRunning ...; unlock` (lines 183-189) — one critical section
   that only reads `isRunning`;
2. `ioutil.ReadDir` — an atomic snapshot of the request directory;
3. the entry loop acting on the snapshot, whose only shared access is the
   `os.Remove` syscall on the first matching entry;
4. `lock; isRunning = true; unlock; go generateRewardsTree(index)`
   (lines 216-219) — a second, separate critical section.

The launched background generation is a fifth action that ends it
(`isRunning = false`, lines 319-321).  Note that actions 1 and 4 are two
distinct acquisitions of `t.lock` with the directory scan between them. -/

/-- Program counter of one `run` invocation plus its in-flight generation. -/
inductive Phase
  | start
  | checked
  | scanned (files : List DirEntry)
  | launching (index : Nat)
  | generating (index : Nat)
  | doneNoOp
  | doneOk
  | doneErr
  | doneFinished (index : Nat)
  deriving DecidableEq, Repr

/-- Shared state: the `isRunning` flag, the request directory, and the phase
of every thread. -/
structure CState where
  isRunning : Bool
  fs : List DirEntry
  threads : List Phase
  deriving DecidableEq, Repr

/-- Replace the phase of thread `tid`. -/
def setPhase (s : CState) (tid : Nat) (ph : Phase) : CState :=
  ⟨s.isRunning, s.fs, s.threads.set tid ph⟩

/-- One atomic action of thread `tid` (no-op for an absent or finished
thread): the `isRunning` check under the first lock, the directory snapshot,
the scan-and-remove of the first matching entry, the flag-set-and-launch
under the second lock, and the completion of the background generation. -/
def threadStep (s : CState) (tid : Nat) : CState :=
  match s.threads[tid]? with
  | none => s
  | some ph =>
    match ph with
    | .start =>
      if s.isRunning then setPhase s tid .doneNoOp else setPhase s tid .checked
    | .checked => setPhase s tid (.scanned s.fs)
    | .scanned files =>
      match firstMatch files with
      | none => setPhase s tid .doneOk
      | some e =>
        match parseUint0_64 (goTrimSuffix e.name requestSuffixBytes) with
        | none => setPhase s tid .doneErr
        | some i =>
          if s.fs.any (fun f => f.name = e.name) then
            ⟨s.isRunning, s.fs.filter (fun f => decide (¬ f.name = e.name)),
              s.threads.set tid (.launching i)⟩
          else setPhase s tid .doneErr
    | .launching i => ⟨true, s.fs, s.threads.set tid (.generating i)⟩
    | .generating i => ⟨false, s.fs, s.threads.set tid (.doneFinished i)⟩
    | .doneNoOp => s
    | .doneOk => s
    | .doneErr => s
    | .doneFinished _ => s

/-- Run a schedule: the listed thread ids take atomic actions in order. -/
def execSched (s : CState) (sched : List Nat) : CState :=
  sched.foldl threadStep s

/-- Number of generations in flight: threads whose generation has started and
not yet finished. -/
def inFlightCount (s : CState) : Nat :=
  s.threads.countP (fun ph => match ph with | .generating _ => true | _ => false)

/-- Two idle `run` invocations over a directory holding requests for
intervals 5 and 6. -/
def twoThreadInit : CState :=
  ⟨false,
    [DirEntry.mk (bytesOf "5.request") false,
      DirEntry.mk (bytesOf "6.request") false],
    [Phase.start, Phase.start]⟩

/-- Claim C1 as stated is refuted: the `isRunning` check and the
`isRunning = true` assignment of `run` sit in two separate critical sections,
so two concurrent invocations that both pass the check before either sets the
flag each launch a generation — after the interleaving below, two tree
generations are in flight at once. -/
theorem run_single_flight_counterexample :
    inFlightCount (execSched twoThreadInit [0, 1, 0, 0, 0, 1, 1, 1]) = 2 := by
  decide

/-- Setting an element to one with the same predicate value preserves
`countP`. -/
theorem countP_set_congr (p : Phase → Bool) (l : List Phase) (tid : Nat)
    (a b : Phase) (h : l[tid]? = some a) (hab : p a = p b) :
    (l.set tid b).countP p = l.countP p := by
  induction l generalizing tid with
  | nil => simp at h
  | cons x xs ih =>
    cases tid with
    | zero =>
      rw [List.getElem?_cons_zero] at h
      injection h with hx
      subst hx
      simp [List.countP_cons, hab]
    | succ k =>
      rw [List.getElem?_cons_succ] at h
      simp [List.countP_cons, ih k h]

/-- Claim C1 (amended): an invocation of `run` whose `isRunning` check (the
first critical section) observes `true` returns immediately as a no-op — its
only effect is marking that thread done; the flag, the request directory and
the number of in-flight generations are untouched.  (The counterexample shows
the rest of the original claim — at most one generation in flight under
arbitrary interleaving — does not hold, because the check and the
`isRunning = true` assignment are two separate critical sections.) -/
theorem run_noop_when_running (s : CState) (tid : Nat)
    (ht : s.threads[tid]? = some Phase.start)
    (hr : s.isRunning = true) :
    threadStep s tid = ⟨s.isRunning, s.fs, s.threads.set tid Phase.doneNoOp⟩ ∧
      inFlightCount (threadStep s tid) = inFlightCount s := by
  have h1 : threadStep s tid =
      ⟨s.isRunning, s.fs, s.threads.set tid Phase.doneNoOp⟩ := by
    simp [threadStep, ht, hr, setPhase]
  refine ⟨h1, ?_⟩
  rw [h1]
  exact countP_set_congr _ s.threads tid Phase.start Phase.doneNoOp ht rfl

/-- Witness for the amended claim C1: with one generation in flight, a second
invocation's check is a no-op and the in-flight count stays 1. -/
theorem run_noop_when_running_witness :
    threadStep ⟨true, [], [Phase.generating 5, Phase.start]⟩ 1 =
        ⟨true, [], [Phase.generating 5, Phase.doneNoOp]⟩ ∧
      inFlightCount (threadStep ⟨true, [], [Phase.generating 5, Phase.start]⟩ 1) =
        inFlightCount ⟨true, [], [Phase.generating 5, Phase.start]⟩ :=
  run_noop_when_running ⟨true, [], [Phase.generating 5, Phase.start]⟩ 1 rfl rfl

/-! ### The background generation pipeline (`generateRewardsTree(index)`)

The task body, lines 229-322.  Chain clients, the reward calculator, the tree
builder (all in packages absent from `src/`), JSON marshalling and the file
write enter through `GenEnv`; the task's observable effects — the error-log
channel fed by `handleError`, the root-mismatch warning line, the argument of
`GetELBlockHeaderForTime`, the filesystem operations, and the final
`isRunning` value — are collected in `GenResult`. -/

/-- The fields of the reward snapshot event consumed by the task: the
recorded consensus block number (`.Block`, a nonnegative big integer read via
`Uint64()`), the interval start and end times (unix seconds), and the
canonical Merkle root (a hash, abstracted to a number). -/
structure RewardsEvent where
  block : Nat
  intervalStartTime : Int
  intervalEndTime : Int
  merkleRoot : Nat
  deriving DecidableEq, Repr

/-- The beacon configuration fields consumed: `GenesisTime` and
`SecondsPerSlot`, both `uint64`. -/
structure Eth2Config where
  genesisTime : Nat
  secondsPerSlot : Nat
  deriving DecidableEq, Repr

/-- The execution-layer block header, abstracted to its number. -/
structure BlockHeader where
  number : Nat
  deriving DecidableEq, Repr

/-- Result triple of `rprewards.CalculateRplRewards`: per-node and
per-network reward maps (entry lists) and the invalid node-network
assignments. -/
structure RewardsCalc where
  nodeRewards : List (Nat × Nat)
  networkRewards : List (Nat × Nat)
  invalidNodeNetworks : List (Nat × Nat)
  deriving DecidableEq, Repr

/-- A built Merkle tree, abstracted to the value of `tree.Root()`. -/
structure MerkleTreeData where
  root : Nat
  deriving DecidableEq, Repr

/-- The JSON proof wrapper.  Its shape follows the call
`rprewards.GenerateTreeJson(tree.Root(), nodeRewardsMap, networkRewardsMap)`
on line 303: the wrapper is built from the local root and the two reward maps
only — the caller passes neither the canonical root nor the comparison
outcome. -/
structure ProofWrapper where
  root : Nat
  nodeRewards : List (Nat × Nat)
  networkRewards : List (Nat × Nat)
  deriving DecidableEq, Repr

/-- Modelled from the spec: `rprewards.GenerateTreeJson` (package
`shared/services/rewards`, absent from `src/`) packages the proof document
from exactly the arguments of the visible call on line 303 — the local root
and the two reward maps.  Whatever its internals, the document is a function
of these three values alone. -/
def generateTreeJson (root : Nat) (nodeRewards networkRewards : List (Nat × Nat)) :
    ProofWrapper :=
  ⟨root, nodeRewards, networkRewards⟩

/-- Reinterpretation of a `uint64` value as Go's `int64` (two's
complement). -/
def toSigned64 (n : Nat) : Int :=
  if n % 2 ^ 64 < 2 ^ 63 then ((n % 2 ^ 64 : Nat) : Int)
  else ((n % 2 ^ 64 : Nat) : Int) - 2 ^ 64

/-- Wraparound of an integer into Go's `int64` range. -/
def wrapSigned64 (z : Int) : Int :=
  if z % 2 ^ 64 < 2 ^ 63 then z % 2 ^ 64 else z % 2 ^ 64 - 2 ^ 64

/-- The block-time computation of lines 255-256:
`genesisTime := time.Unix(int64(eth2Config.GenesisTime), 0)` followed by
`blockTime := genesisTime.Add(time.Duration(rewardsEvent.Block.Uint64()*eth2Config.SecondsPerSlot) * time.Second)`,
with Go's fixed-width arithmetic made explicit down to the `time.Time`
internal representation: the `uint64` product wraps modulo `2^64`; its
conversion to `time.Duration` reinterprets it as a signed 64-bit nanosecond
count; the multiplication by `time.Second = 10^9` wraps in `int64`;
`time.Unix` stores `ext = sec + unixToInternal` (the internal epoch offset
`62135596800`) with `int64` wraparound; `Time.Add` splits the nanosecond
duration into whole seconds and a nonnegative nanosecond remainder using
Go's truncating division with a borrow for negative remainders, then
`addSec` adds the seconds with saturation at the `int64` extremes
(clamping to `2^63 - 1` or `-(2^63 - 1)` on overflow, detected by the
wrapped-comparison test `(sum > ext) == (d > 0)`); finally `Unix()` reads
`ext + internalToUnix`, again with `int64` wraparound.
Result: (unix seconds, nanoseconds) of the produced `time.Time`. -/
def computeBlockTime (genesisTime blockNum secondsPerSlot : Nat) : Int × Int :=
  let gsec : Int := toSigned64 genesisTime
  let ext0 : Int := wrapSigned64 (gsec + 62135596800)
  let d : Int := toSigned64 (blockNum % 2 ^ 64 * (secondsPerSlot % 2 ^ 64))
  let ns : Int := wrapSigned64 (d * 1000000000)
  let dsec0 : Int := ns.tdiv 1000000000
  let rem : Int := ns.tmod 1000000000
  let dsec : Int := if rem < 0 then dsec0 - 1 else dsec0
  let nsec : Int := if rem < 0 then rem + 1000000000 else rem
  let sum : Int := wrapSigned64 (ext0 + dsec)
  let ext : Int :=
    if decide (ext0 < sum) = decide (0 < dsec) then sum
    else if 0 < dsec then 2 ^ 63 - 1
    else -(2 ^ 63 - 1)
  (wrapSigned64 (ext - 62135596800), nsec)

/-- A filesystem operation of the task.  The code only ever performs the
direct `ioutil.WriteFile(path, wrapperBytes, 0644)` of line 312 (recorded
with its success flag); the rename constructor exists so that the
write-to-temporary-then-rename contract asserted by the spec is expressible
about the recorded trace. -/
inductive FsOp
  | writeOp (path : List Nat) (bytes : List Nat) (ok : Bool)
  | renameOp (src dst : List Nat)
  deriving DecidableEq, Repr

/-- The failure exits of the task, one per `t.handleError(fmt.Errorf(...))`
call site, each carrying the interval index baked into the generation
message (`generationPrefix` holds `[Interval %d Tree]`) and the wrapped
message. -/
inductive GenError
  | eventLogInterval (index : Nat) (msg : String)
  | getEvent (index : Nat) (msg : String)
  | beaconConfig (index : Nat) (msg : String)
  | elBlock (index : Nat) (msg : String)
  | calculateRewards (index : Nat) (msg : String)
  | merkleTree (index : Nat) (msg : String)
  | serialize (index : Nat) (msg : String)
  | writeFile (index : Nat) (msg : String)
  deriving DecidableEq, Repr

/-- The interval index carried by a task error. -/
def GenError.interval : GenError → Nat
  | .eventLogInterval i _ => i
  | .getEvent i _ => i
  | .beaconConfig i _ => i
  | .elBlock i _ => i
  | .calculateRewards i _ => i
  | .merkleTree i _ => i
  | .serialize i _ => i
  | .writeFile i _ => i

/-- External collaborators of the task: configuration lookup, chain event
query, beacon configuration, execution-block resolution, reward calculation,
tree building, JSON marshalling, the artifact path derivation
(`cfg.Smartnode.GetRewardsTreePath(index, true)`), and the file write
outcome. -/
structure GenEnv where
  eventLogInterval : Except String Nat
  rewardSnapshotEvent : Nat → Except String RewardsEvent
  eth2Config : Except String Eth2Config
  elBlockHeaderForTime : Int × Int → Except String BlockHeader
  calculateRplRewards : BlockHeader → Int → Except String RewardsCalc
  generateMerkleTreeCall : List (Nat × Nat) → Except String MerkleTreeData
  marshalJson : ProofWrapper → Except String (List Nat)
  rewardsTreePath : Nat → List Nat
  writeFileErr : List Nat → List Nat → Option String

/-- Observable outcome of one task execution: the terminal error (if any),
the error-log channel written by `handleError`, whether the root-mismatch
warning of line 296 was logged, the arguments passed to
`GetELBlockHeaderForTime`, the filesystem trace, and the final value of
`isRunning` (the task entered with `isRunning = true`, set by `run`). -/
structure GenResult where
  outcome : Option GenError
  errLog : List GenError
  warnedRootMismatch : Bool
  elQueries : List (Int × Int)
  fsOps : List FsOp
  isRunningFinal : Bool
  deriving DecidableEq, Repr

/-- The task body: each pipeline stage in program order; every failure goes
through `handleError` (error logged, `isRunning` reset, early return); on the
tree stage's success the local root is compared against the event's canonical
root only to choose the log line; the proof wrapper is then built, marshalled
and written in place. -/
def generateRewardsTreeTask (env : GenEnv) (index : Nat) : GenResult :=
  match env.eventLogInterval with
  | .error m =>
    ⟨some (.eventLogInterval index m), [.eventLogInterval index m],
      false, [], [], false⟩
  | .ok _ =>
    match env.rewardSnapshotEvent index with
    | .error m => ⟨some (.getEvent index m), [.getEvent index m], false, [], [], false⟩
    | .ok ev =>
      match env.eth2Config with
      | .error m =>
        ⟨some (.beaconConfig index m), [.beaconConfig index m], false, [], [], false⟩
      | .ok cfg =>
        let blockTime := computeBlockTime cfg.genesisTime ev.block cfg.secondsPerSlot
        match env.elBlockHeaderForTime blockTime with
        | .error m =>
          ⟨some (.elBlock index m), [.elBlock index m], false, [blockTime], [], false⟩
        | .ok hdr =>
          match env.calculateRplRewards hdr (ev.intervalEndTime - ev.intervalStartTime) with
          | .error m =>
            ⟨some (.calculateRewards index m), [.calculateRewards index m],
              false, [blockTime], [], false⟩
          | .ok rcalc =>
            match env.generateMerkleTreeCall rcalc.nodeRewards with
            | .error m =>
              ⟨some (.merkleTree index m), [.merkleTree index m],
                false, [blockTime], [], false⟩
            | .ok tree =>
              let warned := decide (¬ tree.root = ev.merkleRoot)
              match env.marshalJson (generateTreeJson tree.root rcalc.nodeRewards rcalc.networkRewards) with
              | .error m =>
                ⟨some (.serialize index m), [.serialize index m],
                  warned, [blockTime], [], false⟩
              | .ok wrapperBytes =>
                match env.writeFileErr (env.rewardsTreePath index) wrapperBytes with
                | some m =>
                  ⟨some (.writeFile index m), [.writeFile index m], warned, [blockTime],
                    [FsOp.writeOp (env.rewardsTreePath index) wrapperBytes false], false⟩
                | none =>
                  ⟨none, [], warned, [blockTime],
                    [FsOp.writeOp (env.rewardsTreePath index) wrapperBytes true], false⟩

/-- The files durably produced by a task execution: successful writes of its
filesystem trace. -/
def successfulWrites (r : GenResult) : List (List Nat × List Nat) :=
  r.fsOps.filterMap (fun op =>
    match op with
    | .writeOp p b true => some (p, b)
    | _ => none)

/-- Bounded nonnegative values pass through the `int64` wraparound
unchanged. -/
theorem wrapSigned64_eq_self (z : Int) (h0 : 0 ≤ z) (h63 : z < 2 ^ 63) :
    wrapSigned64 z = z := by
  rw [wrapSigned64, Int.emod_eq_of_lt h0 (lt_trans h63 (by norm_num))]
  exact if_pos h63

/-- Without 64-bit overflow anywhere in the Go time computation — the
nanosecond product `blockNum * secondsPerSlot * 10^9` below `2^63`, and
`genesisTime + blockNum * secondsPerSlot + 62135596800` (the last summand is
`time.Unix`'s internal epoch offset, which enters the stored `ext` value)
below `2^63` — the block-time computation is exact: the wall-clock time is
`genesisTime + blockNum * secondsPerSlot` unix seconds with no nanosecond
remainder. -/
theorem computeBlockTime_exact (g b s : Nat)
    (hbs : b * s * 1000000000 < 2 ^ 63)
    (hsum : g + b * s + 62135596800 < 2 ^ 63) :
    computeBlockTime g b s = ((g : Int) + ((b * s : Nat) : Int), 0) := by
  have h9 : (0 : Nat) < 1000000000 := by norm_num
  have hg : g < 2 ^ 63 :=
    lt_of_le_of_lt
      (le_trans (Nat.le_add_right g (b * s)) (Nat.le_add_right _ 62135596800)) hsum
  have hbs1 : b * s < 2 ^ 63 := lt_of_le_of_lt (Nat.le_mul_of_pos_right _ h9) hbs
  have h6364 : (2 : Nat) ^ 63 < 2 ^ 64 := by norm_num
  have hprod : b % 2 ^ 64 * (s % 2 ^ 64) = b * s := by
    rcases Nat.eq_zero_or_pos b with hb | hb
    · subst hb; simp
    rcases Nat.eq_zero_or_pos s with hs | hs
    · subst hs; simp
    have hble : b < 2 ^ 64 :=
      lt_trans (lt_of_le_of_lt (Nat.le_mul_of_pos_right _ hs) hbs1) h6364
    have hsle : s < 2 ^ 64 :=
      lt_trans (lt_of_le_of_lt (Nat.le_mul_of_pos_left _ hb) hbs1) h6364
    rw [Nat.mod_eq_of_lt hble, Nat.mod_eq_of_lt hsle]
  have e1 : toSigned64 g = (g : Int) := by
    rw [toSigned64, Nat.mod_eq_of_lt (lt_trans hg h6364)]
    exact if_pos hg
  have e2 : toSigned64 (b % 2 ^ 64 * (s % 2 ^ 64)) = ((b * s : Nat) : Int) := by
    rw [hprod, toSigned64, Nat.mod_eq_of_lt (lt_trans hbs1 h6364)]
    exact if_pos hbs1
  have ecast : ((b * s : Nat) : Int) * 1000000000 = ((b * s * 1000000000 : Nat) : Int) := by
    push_cast
    ring
  have hnn : (0 : Int) ≤ ((b * s * 1000000000 : Nat) : Int) := Int.natCast_nonneg _
  have hlt63 : ((b * s * 1000000000 : Nat) : Int) < 2 ^ 63 := by
    exact_mod_cast hbs
  have e3 : wrapSigned64 (((b * s : Nat) : Int) * 1000000000) =
      ((b * s * 1000000000 : Nat) : Int) := by
    rw [ecast, wrapSigned64,
      Int.emod_eq_of_lt hnn (lt_trans hlt63 (by norm_num))]
    exact if_pos hlt63
  have hc9 : ((1000000000 : Nat) : Int) = (1000000000 : Int) := by norm_num
  have e4 : Int.tdiv ((b * s * 1000000000 : Nat) : Int) 1000000000 =
      ((b * s : Nat) : Int) := by
    rw [← hc9, ← Int.ofNat_tdiv, Nat.mul_div_cancel _ h9]
  have e5 : Int.tmod ((b * s * 1000000000 : Nat) : Int) 1000000000 = 0 := by
    rw [Int.tmod_eq_emod hnn (by norm_num), ← hc9, ← Int.natCast_mod,
      Nat.mul_mod_left]
    norm_num
  have hg0 : (0 : Int) ≤ (g : Int) := Int.natCast_nonneg _
  have hB0 : (0 : Int) ≤ ((b * s : Nat) : Int) := Int.natCast_nonneg _
  have hcast : ((g : Int) + ((b * s : Nat) : Int)) + 62135596800 < 2 ^ 63 := by
    exact_mod_cast hsum
  have eA : wrapSigned64 ((g : Int) + 62135596800) = (g : Int) + 62135596800 :=
    wrapSigned64_eq_self _ (by linarith) (by linarith)
  have eS : wrapSigned64 ((g : Int) + 62135596800 + ((b * s : Nat) : Int)) =
      (g : Int) + 62135596800 + ((b * s : Nat) : Int) :=
    wrapSigned64_eq_self _ (by linarith) (by linarith)
  have eF : wrapSigned64 ((g : Int) + ((b * s : Nat) : Int)) =
      (g : Int) + ((b * s : Nat) : Int) :=
    wrapSigned64_eq_self _ (by linarith) (by linarith)
  have hcond : decide ((g : Int) + 62135596800 <
        (g : Int) + 62135596800 + ((b * s : Nat) : Int)) =
      decide ((0 : Int) < ((b * s : Nat) : Int)) := by
    rw [decide_eq_decide]
    exact lt_add_iff_pos_right _
  rw [computeBlockTime]
  simp only [e1, e2, e3, e4, e5]
  simp only [lt_self_iff_false, if_false]
  rw [eA, eS, hcond, if_pos rfl,
    show (g : Int) + 62135596800 + ((b * s : Nat) : Int) - 62135596800 =
      (g : Int) + ((b * s : Nat) : Int) by ring, eF]

/-- Claim C6 (amended): with the first three stages succeeding and no 64-bit
overflow anywhere in the Go time computation (nanosecond product below
`2^63`, and `genesisTime + blockNumber * secondsPerSlot` plus `time.Unix`'s
internal epoch offset `62135596800` below `2^63`), the wall-clock time
handed to `GetELBlockHeaderForTime` is exactly
`genesisTime + recordedConsensusBlockNumber * secondsPerSlot` seconds. -/
theorem generation_elQuery_time (env : GenEnv) (index eli : Nat)
    (ev : RewardsEvent) (cfg : Eth2Config)
    (h1 : env.eventLogInterval = Except.ok eli)
    (h2 : env.rewardSnapshotEvent index = Except.ok ev)
    (h3 : env.eth2Config = Except.ok cfg)
    (hbs : ev.block * cfg.secondsPerSlot * 1000000000 < 2 ^ 63)
    (hsum : cfg.genesisTime + ev.block * cfg.secondsPerSlot + 62135596800 < 2 ^ 63) :
    (generateRewardsTreeTask env index).elQueries =
      [((cfg.genesisTime : Int) + ((ev.block * cfg.secondsPerSlot : Nat) : Int), 0)] := by
  simp only [generateRewardsTreeTask, h1, h2, h3]
  rw [computeBlockTime_exact cfg.genesisTime ev.block cfg.secondsPerSlot hbs hsum]
  repeat' split
  all_goals rfl

/-- Claim C4: every pipeline failure is caught inside the task: the error —
carrying the interval index as context — is the only entry on the error-log
channel, `isRunning` ends `false`, and no artifact file is produced. -/
theorem generation_failure_handled (env : GenEnv) (index : Nat) (e : GenError)
    (h : (generateRewardsTreeTask env index).outcome = some e) :
    e.interval = index ∧
      (generateRewardsTreeTask env index).errLog = [e] ∧
      (generateRewardsTreeTask env index).isRunningFinal = false ∧
      successfulWrites (generateRewardsTreeTask env index) = [] := by
  revert h
  simp only [generateRewardsTreeTask, successfulWrites]
  repeat' split
  all_goals intro h
  all_goals
    first
      | exact Option.noConfusion h
      | (injection h with he
         subst he
         exact ⟨rfl, rfl, rfl, rfl⟩)

/-- Environment realizing the spec scenario for claim C4: no snapshot event
exists for the requested interval, every other collaborator behaves. -/
def notFoundEnv : GenEnv :=
  ⟨Except.ok 1000, fun _ => Except.error "event not found", Except.ok ⟨10, 2⟩,
    fun _ => Except.ok ⟨1⟩, fun _ _ => Except.ok ⟨[], [], []⟩,
    fun _ => Except.ok ⟨0⟩, fun w => Except.ok [w.root], fun i => [i],
    fun _ _ => none⟩

/-- Witness for claim C4: with no snapshot event for interval 7, generation
fails with the not-found error carrying index 7, `isRunning` returns to
false, and no artifact is written. -/
theorem generation_failure_handled_witness :
    (GenError.getEvent 7 "event not found").interval = 7 ∧
      (generateRewardsTreeTask notFoundEnv 7).errLog =
        [GenError.getEvent 7 "event not found"] ∧
      (generateRewardsTreeTask notFoundEnv 7).isRunningFinal = false ∧
      successfulWrites (generateRewardsTreeTask notFoundEnv 7) = [] :=
  generation_failure_handled notFoundEnv 7 (GenError.getEvent 7 "event not found") rfl

/-- Claim C3 (amended): when every stage succeeds, generation succeeds
whether or not the locally computed root equals the event's canonical root;
a root mismatch only raises the warning line, and the written artifact is the
marshalled wrapper built (line 303) from the local root and the two reward
maps alone — the canonical root and the comparison outcome do not reach
it, so the document carries no `matchesCanonical` field. -/
theorem generation_root_mismatch_nonfatal (env : GenEnv) (index eli : Nat)
    (ev : RewardsEvent) (cfg : Eth2Config) (hdr : BlockHeader)
    (rcalc : RewardsCalc) (tree : MerkleTreeData) (wrapperBytes : List Nat)
    (h1 : env.eventLogInterval = Except.ok eli)
    (h2 : env.rewardSnapshotEvent index = Except.ok ev)
    (h3 : env.eth2Config = Except.ok cfg)
    (h4 : env.elBlockHeaderForTime
        (computeBlockTime cfg.genesisTime ev.block cfg.secondsPerSlot) = Except.ok hdr)
    (h5 : env.calculateRplRewards hdr (ev.intervalEndTime - ev.intervalStartTime) =
        Except.ok rcalc)
    (h6 : env.generateMerkleTreeCall rcalc.nodeRewards = Except.ok tree)
    (h7 : env.marshalJson (generateTreeJson tree.root rcalc.nodeRewards rcalc.networkRewards) =
        Except.ok wrapperBytes)
    (h8 : env.writeFileErr (env.rewardsTreePath index) wrapperBytes = none) :
    (generateRewardsTreeTask env index).outcome = none ∧
      (generateRewardsTreeTask env index).warnedRootMismatch =
        decide (¬ tree.root = ev.merkleRoot) ∧
      (generateRewardsTreeTask env index).fsOps =
        [FsOp.writeOp (env.rewardsTreePath index) wrapperBytes true] := by
  simp only [generateRewardsTreeTask, h1, h2, h3, h4, h5, h6, h7, h8]
  exact ⟨trivial, trivial, trivial⟩

/-- Environment for interval 7 whose locally built tree root (42) matches the
canonical root recorded in the snapshot event. -/
def matchEnvC3 : GenEnv :=
  ⟨Except.ok 1000, fun _ => Except.ok ⟨3, 0, 0, 42⟩, Except.ok ⟨10, 2⟩,
    fun _ => Except.ok ⟨1⟩, fun _ _ => Except.ok ⟨[(1, 5)], [(0, 5)], []⟩,
    fun _ => Except.ok ⟨42⟩,
    fun w => Except.ok (w.root :: w.nodeRewards.map Prod.snd),
    fun i => [i], fun _ _ => none⟩

/-- The same environment except that the snapshot event's canonical root (43)
differs from the locally built root (42). -/
def mismatchEnvC3 : GenEnv :=
  ⟨Except.ok 1000, fun _ => Except.ok ⟨3, 0, 0, 43⟩, Except.ok ⟨10, 2⟩,
    fun _ => Except.ok ⟨1⟩, fun _ _ => Except.ok ⟨[(1, 5)], [(0, 5)], []⟩,
    fun _ => Except.ok ⟨42⟩,
    fun w => Except.ok (w.root :: w.nodeRewards.map Prod.snd),
    fun i => [i], fun _ _ => none⟩

/-- Claim C3 as stated is refuted: in two runs that differ only in the
event's canonical root — one matching the local root, one not — both succeed,
the mismatch run alone logs the warning, yet the written artifacts are
byte-identical, so no reading of the artifact can yield `true` for the
matching run and `false` for the mismatching run: the artifact carries no
`matchesCanonical` field. -/
theorem generation_matchesCanonical_counterexample :
    (generateRewardsTreeTask matchEnvC3 7).outcome = none ∧
      (generateRewardsTreeTask mismatchEnvC3 7).outcome = none ∧
      (generateRewardsTreeTask matchEnvC3 7).warnedRootMismatch = false ∧
      (generateRewardsTreeTask mismatchEnvC3 7).warnedRootMismatch = true ∧
      (generateRewardsTreeTask matchEnvC3 7).fsOps =
        (generateRewardsTreeTask mismatchEnvC3 7).fsOps ∧
      ¬ ∃ readFlag : List Nat → Bool,
          (∀ p b, (generateRewardsTreeTask matchEnvC3 7).fsOps =
              [FsOp.writeOp p b true] → readFlag b = true) ∧
          (∀ p b, (generateRewardsTreeTask mismatchEnvC3 7).fsOps =
              [FsOp.writeOp p b true] → readFlag b = false) := by
  refine ⟨rfl, rfl, rfl, rfl, rfl, ?_⟩
  rintro ⟨readFlag, hT, hF⟩
  have l1 : readFlag [42, 5] = true := hT [7] [42, 5] rfl
  have l2 : readFlag [42, 5] = false := hF [7] [42, 5] rfl
  rw [l1] at l2
  exact Bool.noConfusion l2

/-- Witness for the amended claim C3: in the mismatching run, generation
still succeeds, the warning is raised, and the artifact is written. -/
theorem generation_root_mismatch_nonfatal_witness :
    (generateRewardsTreeTask mismatchEnvC3 7).outcome = none ∧
      (generateRewardsTreeTask mismatchEnvC3 7).warnedRootMismatch =
        decide (¬ (42 : Nat) = 43) ∧
      (generateRewardsTreeTask mismatchEnvC3 7).fsOps =
        [FsOp.writeOp (mismatchEnvC3.rewardsTreePath 7) [42, 5] true] :=
  generation_root_mismatch_nonfatal mismatchEnvC3 7 1000 ⟨3, 0, 0, 43⟩ ⟨10, 2⟩ ⟨1⟩
    ⟨[(1, 5)], [(0, 5)], []⟩ ⟨42⟩ [42, 5] rfl rfl rfl rfl rfl rfl rfl rfl

/-- Claim C7 as stated is refuted: a successful run's filesystem trace is a
single direct write of the serialized document to the final artifact path —
there is no write to a temporary location followed by a rename. -/
theorem writer_no_temp_rename_counterexample :
    (generateRewardsTreeTask matchEnvC3 3).fsOps =
        [FsOp.writeOp (matchEnvC3.rewardsTreePath 3) [42, 5] true] ∧
      ¬ ∃ tmp bytes, (generateRewardsTreeTask matchEnvC3 3).fsOps =
          [FsOp.writeOp tmp bytes true,
            FsOp.renameOp tmp (matchEnvC3.rewardsTreePath 3)] := by
  refine ⟨rfl, ?_⟩
  rintro ⟨tmp, bytes, hlen⟩
  have h1 : (generateRewardsTreeTask matchEnvC3 3).fsOps =
      [FsOp.writeOp (matchEnvC3.rewardsTreePath 3) [42, 5] true] := rfl
  rw [h1] at hlen
  simp at hlen

/-- Claim C7 (amended): every successful generation persists the artifact by
a single direct `WriteFile` to the final path derived from the interval
index; no temporary file and no rename are involved (the hardening gap the
spec flags in section 9). -/
theorem writer_single_direct_write (env : GenEnv) (index : Nat)
    (h : (generateRewardsTreeTask env index).outcome = none) :
    (∃ bytes, (generateRewardsTreeTask env index).fsOps =
        [FsOp.writeOp (env.rewardsTreePath index) bytes true]) ∧
      ∀ op ∈ (generateRewardsTreeTask env index).fsOps,
        ∀ src dst, op ≠ FsOp.renameOp src dst := by
  revert h
  simp only [generateRewardsTreeTask]
  repeat' split
  all_goals intro h
  all_goals
    first
      | exact Option.noConfusion h
      | (refine ⟨⟨_, rfl⟩, ?_⟩
         intro op hop src dst
         rw [List.mem_singleton] at hop
         subst hop
         intro hx
         exact FsOp.noConfusion hx)

/-- Witness for the amended claim C7: the successful run for interval 3
writes the serialized document once, directly at the final path, with no
rename in the trace. -/
theorem writer_single_direct_write_witness :
    (∃ bytes, (generateRewardsTreeTask matchEnvC3 3).fsOps =
        [FsOp.writeOp (matchEnvC3.rewardsTreePath 3) bytes true]) ∧
      ∀ op ∈ (generateRewardsTreeTask matchEnvC3 3).fsOps,
        ∀ src dst, op ≠ FsOp.renameOp src dst :=
  writer_single_direct_write matchEnvC3 3 rfl

/-- Environment for claim C6's counterexample: the snapshot event records
consensus block `2^62` with 4 seconds per slot, so the `uint64` product
`block * secondsPerSlot` wraps to 0 and the queried wall-clock time collapses
to the genesis time instead of `genesisTime + block * secondsPerSlot`. -/
def overflowEnv : GenEnv :=
  ⟨Except.ok 1000, fun _ => Except.ok ⟨2 ^ 62, 0, 0, 77⟩, Except.ok ⟨100, 4⟩,
    fun _ => Except.ok ⟨1⟩, fun _ _ => Except.ok ⟨[], [], []⟩,
    fun _ => Except.ok ⟨77⟩, fun w => Except.ok [w.root], fun i => [i],
    fun _ _ => none⟩

/-- Claim C6 as stated is refuted: Go's fixed-width arithmetic wraps, so for
the event recording block `2^62` with 4 seconds per slot the time used to
find the execution block is the bare genesis time (100 seconds), not the
exact value `100 + 2^62 * 4`. -/
theorem generation_blockTime_counterexample :
    (generateRewardsTreeTask overflowEnv 7).elQueries = [((100 : Int), 0)] ∧
      ¬ ((100 : Int) + ((2 ^ 62 * 4 : Nat) : Int) = (100 : Int)) := by
  constructor
  · rfl
  · decide

/-- Environment with realistic magnitudes for the claim C6 witness: genesis
at unix time 1606824023, event block 5, 12 seconds per slot. -/
def mainnetLikeEnv : GenEnv :=
  ⟨Except.ok 1000, fun _ => Except.ok ⟨5, 0, 0, 77⟩,
    Except.ok ⟨1606824023, 12⟩, fun _ => Except.ok ⟨1⟩,
    fun _ _ => Except.ok ⟨[], [], []⟩, fun _ => Except.ok ⟨77⟩,
    fun w => Except.ok [w.root], fun i => [i], fun _ _ => none⟩

/-- Witness for the amended claim C6: within the no-overflow range the time
queried is exactly `genesisTime + block * secondsPerSlot` seconds. -/
theorem generation_elQuery_time_witness :
    (generateRewardsTreeTask mainnetLikeEnv 9).elQueries =
      [(((1606824023 : Nat) : Int) + (((5 * 12 : Nat) : Nat) : Int), 0)] :=
  generation_elQuery_time mainnetLikeEnv 9 1000 ⟨5, 0, 0, 77⟩ ⟨1606824023, 12⟩
    rfl rfl rfl (by decide) (by decide)

/-! ### Merkle tree builder (claim C5)

`rprewards.GenerateMerkleTree` lives in `shared/services/rewards`, which is
absent from `src/`; the builder below is modelled from section 4.5 of the
spec: one leaf per node entry under a canonical leaf encoding, leaves in the
canonical order (sorted by node address), pairwise hashing with the
duplicate-last odd-leaf tie-break, up to a single root. -/

/-- Modelled from the spec: the canonical leaf encoding — the node address
and reward amount packed before hashing.  `Nat.pair` stands in for the
protocol's keccak-based hash, which the spec defers to the external
commitment scheme; any fixed function works for the determinism and
order-invariance claim. -/
def encodeLeaf (addr amount : Nat) : Nat := Nat.pair addr amount

/-- Modelled from the spec: the interior-node hash combining two children. -/
def hashNode (a b : Nat) : Nat := Nat.pair a b + 1

/-- One level of pairwise hashing; a trailing odd node is paired with a copy
of itself (duplicate-last tie-break). -/
def hashLevel : List Nat → List Nat
  | [] => []
  | [a] => [hashNode a a]
  | a :: b :: rest => hashNode a b :: hashLevel rest

/-- A hashing level never grows the list. -/
theorem hashLevel_length_le : ∀ l : List Nat, (hashLevel l).length ≤ l.length
  | [] => le_refl _
  | [_] => le_refl _
  | a :: b :: rest => by
    simp only [hashLevel, List.length_cons]
    have := hashLevel_length_le rest
    omega

/-- Root of the binary hash tree over a list of node hashes. -/
def buildRoot : List Nat → Nat
  | [] => 0
  | [a] => a
  | a :: b :: rest => buildRoot (hashNode a b :: hashLevel rest)
termination_by l => l.length
decreasing_by
  simp only [List.length_cons]
  have := hashLevel_length_le rest
  omega

/-- The canonical order on reward-map entries: by node address. -/
def keyLe (p q : Nat × Nat) : Prop := p.1 ≤ q.1

instance : DecidableRel keyLe := fun p q => Nat.decLe p.1 q.1

instance : IsTotal (Nat × Nat) keyLe := ⟨fun p q => Nat.le_total p.1 q.1⟩

instance : IsTrans (Nat × Nat) keyLe := ⟨fun _ _ _ => Nat.le_trans⟩

/-- Modelled from the spec: `rprewards.GenerateMerkleTree(nodeRewardsMap)` —
the node reward entries are brought into the canonical order (sorted by
address), encoded into leaves, and hashed pairwise up to the root. -/
def generateMerkleTree (d : List (Nat × Nat)) : MerkleTreeData :=
  ⟨buildRoot ((d.insertionSort keyLe).map (fun p => encodeLeaf p.1 p.2))⟩

/-- Two sorted entry lists that are permutations of each other and have no
duplicate addresses are equal. -/
theorem sorted_keyLe_perm_eq : ∀ l₁ l₂ : List (Nat × Nat), l₁.Perm l₂ →
    List.Sorted keyLe l₁ → List.Sorted keyLe l₂ →
    (l₁.map Prod.fst).Nodup → l₁ = l₂
  | [], l₂, hp, _, _, _ => (hp.symm.eq_nil).symm
  | p :: t, [], hp, _, _, _ => absurd hp.eq_nil (by simp)
  | p :: t, q :: t₂, hp, hs₁, hs₂, hnd => by
    rw [List.sorted_cons] at hs₁ hs₂
    have hpq : p = q := by
      have hpmem : p ∈ q :: t₂ := hp.subset (List.mem_cons_self p t)
      have hqmem : q ∈ p :: t := hp.symm.subset (List.mem_cons_self q t₂)
      have h1 : q.1 ≤ p.1 := by
        rcases List.mem_cons.mp hpmem with h | h
        · rw [h]
        · exact hs₂.1 p h
      rcases List.mem_cons.mp hqmem with h | h
      · exact h.symm
      · exfalso
        have h2 : p.1 ≤ q.1 := hs₁.1 q h
        have hq1 : q.1 = p.1 := le_antisymm h1 h2
        rw [List.map_cons, List.nodup_cons] at hnd
        exact hnd.1 (hq1 ▸ List.mem_map_of_mem Prod.fst h)
    subst hpq
    have ht : t = t₂ :=
      sorted_keyLe_perm_eq t t₂ hp.cons_inv hs₁.2 hs₂.2
        (by rw [List.map_cons, List.nodup_cons] at hnd; exact hnd.2)
    rw [ht]

/-- Claim C5: the produced root is a pure deterministic function of the
(address, amount) entry set — building twice from the same map yields the
same root, and re-ordering the entries before the canonical sort leaves the
root unchanged (the addresses of a reward map are pairwise distinct). -/
theorem generateMerkleTree_deterministic (d₁ d₂ : List (Nat × Nat))
    (hnd : (d₁.map Prod.fst).Nodup) (hperm : d₁.Perm d₂) :
    generateMerkleTree d₁ = generateMerkleTree d₁ ∧
      generateMerkleTree d₁ = generateMerkleTree d₂ := by
  refine ⟨rfl, ?_⟩
  have hs₁ := List.sorted_insertionSort keyLe d₁
  have hs₂ := List.sorted_insertionSort keyLe d₂
  have hp : (d₁.insertionSort keyLe).Perm (d₂.insertionSort keyLe) :=
    (List.perm_insertionSort keyLe d₁).trans
      (hperm.trans (List.perm_insertionSort keyLe d₂).symm)
  have hnd2 : ((d₁.insertionSort keyLe).map Prod.fst).Nodup :=
    (((List.perm_insertionSort keyLe d₁).map Prod.fst).nodup_iff).mpr hnd
  have heq := sorted_keyLe_perm_eq _ _ hp hs₁ hs₂ hnd2
  rw [generateMerkleTree, generateMerkleTree, heq]

/-- Witness for claim C5 at the two-entry map with addresses 1 and 2. -/
theorem generateMerkleTree_deterministic_witness :
    (([((2 : Nat), (5 : Nat)), (1, 7)]).map Prod.fst).Nodup ∧
      generateMerkleTree [((2 : Nat), (5 : Nat)), (1, 7)] =
        generateMerkleTree [(2, 5), (1, 7)] ∧
      generateMerkleTree [((2 : Nat), (5 : Nat)), (1, 7)] =
        generateMerkleTree [(1, 7), (2, 5)] := by
  have hnd : (([((2 : Nat), (5 : Nat)), (1, 7)]).map Prod.fst).Nodup := by decide
  have hperm : List.Perm [((2 : Nat), (5 : Nat)), (1, 7)] [(1, 7), (2, 5)] :=
    List.Perm.swap (1, 7) (2, 5) []
  have h := generateMerkleTree_deterministic [(2, 5), (1, 7)] [(1, 7), (2, 5)] hnd hperm
  exact ⟨hnd, h.1, h.2⟩

/-! ### Wallet purge (`api/wallet/purge.go`, claim C9)

The `purge` handler: service lookups, deletion of the node's validating
minipool keys, the custom-key directory check (`os.Stat` followed by
`os.IsNotExist(err) || !info.IsDir()`), the custom-keystore sweep, and the
final wallet/password deletion and validator-client restart. -/

/-- Outcome of `os.Stat(customKeyDir)`: the path is absent, `Stat` failed
with some other error (in which case `info` is nil and the code's
`!info.IsDir()` dereferences it), or the path exists as a directory or not. -/
inductive StatResult
  | notExist
  | otherError
  | found (isDir : Bool)
  deriving DecidableEq, Repr

/-- The error exits of `purge`, one per `return nil, err` site. -/
inductive PurgeError
  | services (msg : String)
  | pubkeys (msg : String)
  | enumKeystores (msg : String)
  | readKeystore (name : List Nat) (msg : String)
  | deserializeKeystore (name : List Nat) (msg : String)
  | removeKeystore (name : List Nat) (msg : String)
  | deleteWallet (msg : String)
  | deletePassword (msg : String)
  | restartValidator (msg : String)
  deriving DecidableEq, Repr

/-- Terminal state of one `purge` call: the successful empty response, an
error return, or the nil-dereference panic of the `!info.IsDir()` test when
`Stat` fails with a non-not-exist error. -/
inductive PurgeOutcome
  | okResponse
  | err (e : PurgeError)
  | nilDerefPanic
  deriving DecidableEq, Repr

/-- External collaborators of `purge`: the service lookups (collapsed to one
optional failure), the node's validating minipool pubkeys, the `Stat` of the
custom key directory, its file listing, per-file reads, keystore decoding,
per-file removal, wallet deletion, password deletion, and the validator
client restart. -/
structure PurgeEnv where
  services : Option String
  pubkeys : Except String (List Nat)
  stat : StatResult
  readCustomKeyDir : Except String (List (List Nat))
  readFile : List Nat → Except String (List Nat)
  unmarshalKeystore : List Nat → Except String Nat
  removeErr : List Nat → Option String
  walletDelete : Option String
  passwordDelete : Option String
  restartValidator : Option String

/-- Observable effects of one `purge` call: its outcome, the pubkeys whose
validator keys were deleted (`w.DeleteValidatorKey`, return value discarded
by the code), the removed custom keystore files, and whether the wallet was
deleted, the password deleted, and the validator client restarted. -/
structure PurgeResult where
  outcome : PurgeOutcome
  deletedValidatorKeys : List Nat
  removedKeystoreFiles : List (List Nat)
  walletDeleted : Bool
  passwordDeleted : Bool
  validatorRestarted : Bool
  deriving DecidableEq, Repr

/-- The `for _, file := range files` sweep of `purge`: reads each keystore
file, decodes it, skips pubkeys that are not among the node's minipool
pubkeys, and removes matching files, failing on the first read, decode or
removal error.  Returns the error (if any) together with the names removed
before it — a file removed before a later failure stays removed. -/
def purgeLoop (env : PurgeEnv) (pks : List Nat) :
    List (List Nat) → Option PurgeError × List (List Nat)
  | [] => (none, [])
  | f :: rest =>
    match env.readFile f with
    | .error m => (some (.readKeystore f m), [])
    | .ok bytes =>
      match env.unmarshalKeystore bytes with
      | .error m => (some (.deserializeKeystore f m), [])
      | .ok pk =>
        if pk ∈ pks then
          match env.removeErr f with
          | some m => (some (.removeKeystore f m), [])
          | none =>
            let r := purgeLoop env pks rest
            (r.1, f :: r.2)
        else purgeLoop env pks rest

/-- The `purge` handler body. -/
def purge (env : PurgeEnv) : PurgeResult :=
  match env.services with
  | some m => ⟨.err (.services m), [], [], false, false, false⟩
  | none =>
    match env.pubkeys with
    | .error m => ⟨.err (.pubkeys m), [], [], false, false, false⟩
    | .ok pks =>
      match env.stat with
      | .notExist => ⟨.okResponse, pks, [], false, false, false⟩
      | .otherError => ⟨.nilDerefPanic, pks, [], false, false, false⟩
      | .found false => ⟨.okResponse, pks, [], false, false, false⟩
      | .found true =>
        match env.readCustomKeyDir with
        | .error m => ⟨.err (.enumKeystores m), pks, [], false, false, false⟩
        | .ok files =>
          if files = [] then ⟨.okResponse, pks, [], false, false, false⟩
          else
            match purgeLoop env pks files with
            | (some e, removedNames) => ⟨.err e, pks, removedNames, false, false, false⟩
            | (none, removedNames) =>
              match env.walletDelete with
              | some m => ⟨.err (.deleteWallet m), pks, removedNames, false, false, false⟩
              | none =>
                match env.passwordDelete with
                | some m =>
                  ⟨.err (.deletePassword m), pks, removedNames, true, false, false⟩
                | none =>
                  match env.restartValidator with
                  | some m =>
                    ⟨.err (.restartValidator m), pks, removedNames, true, true, false⟩
                  | none => ⟨.okResponse, pks, removedNames, true, true, true⟩

/-- Claim C9: when the custom validator key directory does not exist, is not
a directory, or is an empty directory — and the preceding service and pubkey
lookups succeed — `purge` returns the success response early, after deleting
the node's validating minipool keys, without deleting the wallet, without
deleting the password, and without restarting the validator client. -/
theorem purge_early_exit_no_custom_keys (env : PurgeEnv) (pks : List Nat)
    (hsvc : env.services = none)
    (hpk : env.pubkeys = Except.ok pks)
    (hdir : env.stat = StatResult.notExist ∨ env.stat = StatResult.found false ∨
      (env.stat = StatResult.found true ∧ env.readCustomKeyDir = Except.ok [])) :
    purge env = ⟨PurgeOutcome.okResponse, pks, [], false, false, false⟩ := by
  rcases hdir with h | h | ⟨h, hrd⟩
  · simp only [purge, hsvc, hpk, h]
  · simp only [purge, hsvc, hpk, h]
  · simp only [purge, hsvc, hpk, h, hrd]
    rfl

/-- Environment for the claim C9 witness: two minipool pubkeys, the custom
key directory absent, every collaborator otherwise healthy. -/
def noCustomKeysEnv : PurgeEnv :=
  ⟨none, Except.ok [11, 22], StatResult.notExist, Except.ok [],
    fun _ => Except.ok [], fun _ => Except.ok 0, fun _ => none,
    none, none, none⟩

/-- Witness for claim C9: with the custom key directory absent, `purge`
returns success, deletes the two validating keys, and leaves the wallet,
password and validator client untouched. -/
theorem purge_early_exit_no_custom_keys_witness :
    purge noCustomKeysEnv =
      ⟨PurgeOutcome.okResponse, [11, 22], [], false, false, false⟩ :=
  purge_early_exit_no_custom_keys noCustomKeysEnv [11, 22] rfl rfl (Or.inl rfl)
